import Mathlib

/-!
Shallow embedding of src/cmd/compile/internal/gc/syntax.go: the Node
payload discipline (Val / Opt sharing the E slot under the tri-state
hasVal marker) and the Nodes sequence container, together with proofs
of the specification claims about them.

Modelling conventions:
- Go interface values are IFace: either the nil interface or some data,
  data abstracted by a natural number.
- Pointers to Node are abstract heap references (NodeRef, a natural
  number standing for the address); the claims only observe reference
  identity of container elements.
- A fatal abort (Fatalf) is Except.error with the Fatalf format string;
  a runtime panic (nil slice-pointer dereference or index out of range)
  is Option.none.
- Mutating methods return the updated value instead of writing through
  the receiver pointer.
-/

deriving instance DecidableEq for Except

namespace gc

/-- Abstract heap reference standing for a Go pointer of type star-Node. -/
abbrev NodeRef := Nat

/-- A Go interface value: the nil interface or some concrete data. -/
inductive IFace where
  | nil
  | data (v : Nat)
  deriving DecidableEq

/-- The Val struct: a wrapped interface value U (zero value has U nil). -/
structure Val where
  U : IFace
  deriving DecidableEq

/-- Nodes is a pointer to a slice of node references; the pointer being
nil (the zero value) is Option.none. -/
structure Nodes where
  slice : Option (List NodeRef)
  deriving DecidableEq

/-- Func side-table, restricted to its Nodes-valued fields (Enter, Exit,
Cvars, Inldcl, Inl); its pointer, integer and flag fields are never read
or written by any modelled operation and are omitted. -/
structure Func where
  Enter  : Nodes
  Exit   : Nodes
  Cvars  : Nodes
  Inldcl : Nodes
  Inl    : Nodes
  deriving DecidableEq

/-- The Node struct, restricted to the fields the modelled operations
touch: the tree-shape fields (Left, Right, Ninit, Nbody, List, Rlist),
the Func side-table pointer, and the payload slot E with its tri-state
marker hasVal (+1 for Val, -1 for Opt, 0 for not yet set). Fields of
opaque collaborator types (Type, Orig, Name, Sym) and the scalar flags
are never read or written by any modelled operation and are omitted. -/
structure Node where
  Left   : Option NodeRef
  Right  : Option NodeRef
  Ninit  : Nodes
  Nbody  : Nodes
  List   : Nodes
  Rlist  : Nodes
  Func   : Option Func
  E      : IFace
  hasVal : Int
  deriving DecidableEq

/-- The zero value of Nodes: nil slice pointer. -/
def zeroNodes : Nodes := { slice := none }

/-- The zero value of Val: nil interface in U. -/
def zeroVal : Val := { U := IFace.nil }

/-- The zero value of Func: every Nodes field has a nil slice pointer. -/
def zeroFunc : Func :=
  { Enter := zeroNodes, Exit := zeroNodes, Cvars := zeroNodes,
    Inldcl := zeroNodes, Inl := zeroNodes }

/-- The zero value of Node: nil pointers, zero-value Nodes fields, nil
interface in E, and hasVal 0 (not yet set). -/
def zeroNode : Node :=
  { Left := none, Right := none, Ninit := zeroNodes, Nbody := zeroNodes,
    List := zeroNodes, Rlist := zeroNodes, Func := none,
    E := IFace.nil, hasVal := 0 }

/-- Val returns the Val for the node: the zero Val unless hasVal is +1. -/
def Node.Val (n : Node) : gc.Val :=
  if n.hasVal ≠ 1 then { U := IFace.nil } else { U := n.E }

/-- SetVal sets the Val for the node; Fatalf("have Opt") if the node has
been used with SetOpt (hasVal is -1), otherwise marks hasVal +1 and
stores v.U in E. -/
def Node.SetVal (n : Node) (v : gc.Val) : Except String Node :=
  if n.hasVal = -1 then Except.error "have Opt"
  else Except.ok { n with hasVal := 1, E := v.U }

/-- Opt returns the optimizer data for the node: nil unless hasVal is -1. -/
def Node.Opt (n : Node) : IFace :=
  if n.hasVal ≠ -1 then IFace.nil else n.E

/-- SetOpt sets the optimizer data for the node. SetOpt(nil) is ignored
when hasVal is at least 0; Fatalf("have Val") if the node has been used
with SetVal (hasVal is +1); otherwise marks hasVal -1 and stores x in E. -/
def Node.SetOpt (n : Node) (x : IFace) : Except String Node :=
  if x = IFace.nil ∧ n.hasVal ≥ 0 then Except.ok n
  else if n.hasVal = 1 then Except.error "have Val"
  else Except.ok { n with hasVal := -1, E := x }

/-- Slice returns the entries in Nodes as a slice: nil (the empty list)
when the slice pointer is nil, otherwise the pointed-to slice. -/
def Nodes.Slice (n : Nodes) : List NodeRef :=
  match n.slice with
  | none => []
  | some s => s

/-- Len returns the number of entries in Nodes: 0 when the slice pointer
is nil. -/
def Nodes.Len (n : Nodes) : Nat :=
  match n.slice with
  | none => 0
  | some s => s.length

/-- Index returns the i-th element of Nodes; none models the panic (nil
pointer dereference or index out of range) when n does not have at least
i+1 elements. -/
def Nodes.Index (n : Nodes) (i : Nat) : Option NodeRef :=
  match n.slice with
  | none => none
  | some s => s[i]?

/-- First returns the first element of Nodes (same as Index 0); none
models the panic when n has no elements. -/
def Nodes.First (n : Nodes) : Option NodeRef :=
  match n.slice with
  | none => none
  | some s => s[0]?

/-- Second returns the second element of Nodes (same as Index 1); none
models the panic when n has fewer than two elements. -/
def Nodes.Second (n : Nodes) : Option NodeRef :=
  match n.slice with
  | none => none
  | some s => s[1]?

/-- Set sets n to a slice, taking ownership of it; an empty slice resets
the slice pointer to nil. -/
def Nodes.Set (n : Nodes) (s : List NodeRef) : Nodes :=
  if s.length = 0 then { slice := none } else { slice := some s }

/-- Set1 sets n to a slice containing a single node. -/
def Nodes.Set1 (n : Nodes) (node : NodeRef) : Nodes :=
  { slice := some [node] }

/-- MoveNodes sets n to the contents of n2, then clears n2; the result
is the pair (new n, new n2). -/
def Nodes.MoveNodes (n n2 : Nodes) : Nodes × Nodes :=
  ({ slice := n2.slice }, { slice := none })

/-- SetIndex sets the i-th element of Nodes to node; none models the
panic when n does not have at least i+1 elements. -/
def Nodes.SetIndex (n : Nodes) (i : Nat) (node : NodeRef) : Option Nodes :=
  match n.slice with
  | none => none
  | some s => if i < s.length then some { slice := some (s.set i node) } else none

/-- Addr returns the address of the i-th element of Nodes; the address
is modelled by the slot's current content, and none models the panic
when n does not have at least i+1 elements. -/
def Nodes.Addr (n : Nodes) (i : Nat) : Option NodeRef :=
  match n.slice with
  | none => none
  | some s => s[i]?

/-- Append appends entries to Nodes: with a nil slice pointer it takes
ownership of the argument slice when non-empty, otherwise it appends to
the pointed-to slice. -/
def Nodes.Append (n : Nodes) (a : List NodeRef) : Nodes :=
  match n.slice with
  | none => if a.length > 0 then { slice := some a } else n
  | some s => { slice := some (s ++ a) }

/-- AppendNodes appends the contents of n2 to n, then clears n2; the
result is the pair (new n, new n2). -/
def Nodes.AppendNodes (n n2 : Nodes) : Nodes × Nodes :=
  (match n2.slice with
   | none => n
   | some s2 =>
     match n.slice with
     | none => { slice := some s2 }
     | some s => { slice := some (s ++ s2) },
   { slice := none })

/-- A node whose payload slot was set through SetVal with data 7. -/
def valNode7 : Node := { zeroNode with hasVal := 1, E := IFace.data 7 }

/-- A node whose payload slot was set through SetOpt with data 5. -/
def optNode5 : Node := { zeroNode with hasVal := -1, E := IFace.data 5 }

/-- A node in the optimizer-data-set marker state storing the nil
interface. -/
def optNodeNil : Node := { zeroNode with hasVal := -1, E := IFace.nil }

end gc

namespace gc

/-- One payload-slot operation on a node: the two getters and the two
setters of the Val / Opt discipline. -/
inductive PayloadOp where
  | getVal
  | setVal (v : Val)
  | getOpt
  | setOpt (x : IFace)

/-- Run one payload operation on a node: getters leave the node
unchanged, setters behave as SetVal / SetOpt (error is the fatal abort). -/
def PayloadOp.step (op : PayloadOp) (n : Node) : Except String Node :=
  match op with
  | PayloadOp.getVal => Except.ok n
  | PayloadOp.getOpt => Except.ok n
  | PayloadOp.setVal v => n.SetVal v
  | PayloadOp.setOpt x => n.SetOpt x

/-- Run a sequence of payload operations on a node, stopping at the
first fatal abort. -/
def runOps (ops : List PayloadOp) (n : Node) : Except String Node :=
  match ops with
  | [] => Except.ok n
  | op :: rest =>
    match op.step n with
    | Except.ok n2 => runOps rest n2
    | Except.error e => Except.error e

/-- Result state of SetOpt with the nil interface, which never aborts:
the node itself when the call is ignored, the updated node otherwise. -/
def afterSetOptNil (n : Node) : Node :=
  match n.SetOpt IFace.nil with
  | Except.ok n2 => n2
  | Except.error _ => n

end gc

namespace gc

theorem step_keeps_marker_set (op : PayloadOp) (m m2 : Node)
    (h : m.hasVal ≠ 0) (hs : op.step m = Except.ok m2) : m2.hasVal ≠ 0 := by
  cases op with
  | getVal =>
    simp only [PayloadOp.step, Except.ok.injEq] at hs
    subst hs; exact h
  | getOpt =>
    simp only [PayloadOp.step, Except.ok.injEq] at hs
    subst hs; exact h
  | setVal v =>
    simp only [PayloadOp.step, Node.SetVal] at hs
    split at hs
    · exact absurd hs (by simp)
    · simp only [Except.ok.injEq] at hs
      subst hs; simp
  | setOpt x =>
    simp only [PayloadOp.step, Node.SetOpt] at hs
    split at hs
    · simp only [Except.ok.injEq] at hs
      subst hs; exact h
    · split at hs
      · exact absurd hs (by simp)
      · simp only [Except.ok.injEq] at hs
        subst hs; simp

theorem runOps_keeps_marker_set (ops : List PayloadOp) (m m2 : Node)
    (h : m.hasVal ≠ 0) (hr : runOps ops m = Except.ok m2) : m2.hasVal ≠ 0 := by
  induction ops generalizing m with
  | nil =>
    simp only [runOps, Except.ok.injEq] at hr
    subst hr; exact h
  | cons op rest ih =>
    simp only [runOps] at hr
    cases hs : op.step m with
    | ok mid =>
      rw [hs] at hr
      exact ih mid (step_keeps_marker_set op m mid h hs) hr
    | error e => rw [hs] at hr; exact absurd hr (by simp)

/-- C1: Writing the payload cross-kind is fatal: SetOpt with a non-nil
argument on a value-set node aborts with Fatalf("have Val"), and SetVal
on an optimizer-data-set node aborts with Fatalf("have Opt"); in both
cases the error is raised, not silently coerced. -/
theorem setOpt_setVal_cross_kind_fatal (n m : Node) (x : IFace) (v : Val)
    (hx : x ≠ IFace.nil) (hn : n.hasVal = 1) (hm : m.hasVal = -1) :
    n.SetOpt x = Except.error "have Val" ∧ m.SetVal v = Except.error "have Opt" := by
  constructor
  · simp [Node.SetOpt, hx, hn]
  · simp [Node.SetVal, hm]

/-- Witness for C1 at concrete nodes in each marker state. -/
theorem setOpt_setVal_cross_kind_fatal_witness :
    valNode7.SetOpt (IFace.data 3) = Except.error "have Val"
    ∧ optNode5.SetVal zeroVal = Except.error "have Opt" :=
  setOpt_setVal_cross_kind_fatal valNode7 optNode5 (IFace.data 3) zeroVal
    (by decide) (by decide) (by decide)

/-- C2 counterexample: on a node in the optimizer-data-set state storing
data 5, SetOpt(nil) succeeds but returns a changed node whose stored
payload E has been overwritten with nil, so the call does not leave the
node's stored payload completely unchanged. -/
theorem setOpt_nil_not_unchanged_cex :
    optNode5.SetOpt IFace.nil = Except.ok optNodeNil ∧ optNodeNil ≠ optNode5 := by
  decide

/-- C2 (amended): SetOpt(nil) never fails; when the marker is unset or
value-set (hasVal at least 0) it is a silent no-op leaving the node
completely unchanged, and when the marker is optimizer-data-set it keeps
the marker at optimizer-data-set but overwrites the stored payload with
nil. -/
theorem setOpt_nil_cases (n m : Node) (hn : n.hasVal ≥ 0) (hm : m.hasVal = -1) :
    n.SetOpt IFace.nil = Except.ok n
    ∧ m.SetOpt IFace.nil = Except.ok { m with hasVal := -1, E := IFace.nil } := by
  constructor
  · simp [Node.SetOpt, hn]
  · have hge : ¬ m.hasVal ≥ 0 := by omega
    have h1 : m.hasVal ≠ 1 := by omega
    simp [Node.SetOpt, hge, h1]

/-- Witness for C2 (amended) at concrete nodes in each marker state. -/
theorem setOpt_nil_cases_witness :
    valNode7.SetOpt IFace.nil = Except.ok valNode7
    ∧ optNode5.SetOpt IFace.nil = Except.ok { optNode5 with hasVal := -1, E := IFace.nil } :=
  setOpt_nil_cases valNode7 optNode5 (by decide) (by decide)

/-- C3: SetOpt(nil) never aborts in any prior marker state, and
afterwards Opt() reports absent (nil); moreover, when the prior state
was value-set the stored value is preserved and Val() still returns it. -/
theorem setOpt_nil_never_fatal_absent (n m : Node) (hm : m.hasVal = 1) :
    (n.SetOpt IFace.nil).isOk = true
    ∧ (afterSetOptNil n).Opt = IFace.nil
    ∧ (afterSetOptNil m).Val = m.Val := by
  refine ⟨?_, ?_, ?_⟩
  · by_cases h : n.hasVal ≥ 0
    · simp [Node.SetOpt, h, Except.isOk, Except.toBool]
    · have h1 : n.hasVal ≠ 1 := by omega
      simp [Node.SetOpt, h, h1, Except.isOk, Except.toBool]
  · by_cases h : n.hasVal ≥ 0
    · have h1 : n.hasVal ≠ -1 := by omega
      simp [afterSetOptNil, Node.SetOpt, h, Node.Opt, h1]
    · have h1 : n.hasVal ≠ 1 := by omega
      simp [afterSetOptNil, Node.SetOpt, h, h1, Node.Opt]
  · have h : m.hasVal ≥ 0 := by omega
    simp [afterSetOptNil, Node.SetOpt, h]

/-- Witness for C3 at concrete nodes: an optimizer-data-set node and a
value-set node. -/
theorem setOpt_nil_never_fatal_absent_witness :
    (optNode5.SetOpt IFace.nil).isOk = true
    ∧ (afterSetOptNil optNode5).Opt = IFace.nil
    ∧ (afterSetOptNil valNode7).Val = valNode7.Val :=
  setOpt_nil_never_fatal_absent optNode5 valNode7 (by decide)

/-- C4: After a successful SetVal(v), Val() returns v and Opt() returns
nil; after a successful SetOpt(x) with non-nil x, Opt() returns x and
Val() returns the zero Val; and each getter never errors, returning the
absent answer whenever its marker is not set. -/
theorem getters_after_setters (n n2 m m2 k j : Node) (v : Val) (x : IFace)
    (hx : x ≠ IFace.nil)
    (hv : n.SetVal v = Except.ok n2) (ho : m.SetOpt x = Except.ok m2)
    (hk : k.hasVal ≠ 1) (hj : j.hasVal ≠ -1) :
    n2.Val = v ∧ n2.Opt = IFace.nil ∧ m2.Opt = x ∧ m2.Val = zeroVal
    ∧ k.Val = zeroVal ∧ j.Opt = IFace.nil := by
  have hne : n.hasVal ≠ -1 := by
    intro h; simp [Node.SetVal, h] at hv
  have hn2 : n2 = { n with hasVal := 1, E := v.U } := by
    simp [Node.SetVal, hne] at hv; exact hv.symm
  have hm1 : m.hasVal ≠ 1 := by
    intro h; simp [Node.SetOpt, hx, h] at ho
  have hm2 : m2 = { m with hasVal := -1, E := x } := by
    simp [Node.SetOpt, hx, hm1] at ho; exact ho.symm
  subst hn2; subst hm2
  obtain ⟨u⟩ := v
  refine ⟨?_, ?_, ?_, ?_, ?_, ?_⟩ <;> simp [Node.Val, Node.Opt, zeroVal, hk, hj]

/-- Witness for C4: the setters applied to fresh nodes, and the getters
read back on the results and on a fresh node. -/
theorem getters_after_setters_witness :
    valNode7.Val = { U := IFace.data 7 } ∧ valNode7.Opt = IFace.nil
    ∧ optNode5.Opt = IFace.data 5 ∧ optNode5.Val = zeroVal
    ∧ zeroNode.Val = zeroVal ∧ zeroNode.Opt = IFace.nil :=
  getters_after_setters zeroNode valNode7 zeroNode optNode5 zeroNode zeroNode
    { U := IFace.data 7 } (IFace.data 5) (by decide) (by decide) (by decide)
    (by decide) (by decide)

/-- C5: Out-of-bounds positional access is fatal for every container
state: Index, SetIndex and Addr at any position at or past Len panic
(modelled as none), First panics on a container of Len 0, and Second
panics on a container of Len at most 1; there is no clamping or silent
truncation. -/
theorem oob_access_fatal (c c0 c1 : Nodes) (i : Nat) (node : NodeRef)
    (hi : c.Len ≤ i) (h0 : c0.Len = 0) (h1 : c1.Len ≤ 1) :
    c.Index i = none ∧ c.SetIndex i node = none ∧ c.Addr i = none
    ∧ c0.First = none ∧ c1.Second = none := by
  obtain ⟨s⟩ := c; obtain ⟨s0⟩ := c0; obtain ⟨s1⟩ := c1
  refine ⟨?_, ?_, ?_, ?_, ?_⟩
  · cases s with
    | none => rfl
    | some l =>
      simp only [Nodes.Len] at hi
      simp [Nodes.Index, List.getElem?_eq_none hi]
  · cases s with
    | none => rfl
    | some l =>
      simp only [Nodes.Len] at hi
      simp [Nodes.SetIndex, Nat.not_lt.mpr hi]
  · cases s with
    | none => rfl
    | some l =>
      simp only [Nodes.Len] at hi
      simp [Nodes.Addr, List.getElem?_eq_none hi]
  · cases s0 with
    | none => rfl
    | some l0 =>
      simp only [Nodes.Len] at h0
      simp [Nodes.First, List.getElem?_eq_none (Nat.le_of_eq h0)]
  · cases s1 with
    | none => rfl
    | some l1 =>
      simp only [Nodes.Len] at h1
      simp [Nodes.Second, List.getElem?_eq_none h1]

/-- Witness for C5 at a populated container, an empty container and a
singleton container. -/
theorem oob_access_fatal_witness :
    (Nodes.mk (some [3])).Index 5 = none ∧ (Nodes.mk (some [3])).SetIndex 5 0 = none
    ∧ (Nodes.mk (some [3])).Addr 5 = none ∧ zeroNodes.First = none
    ∧ (Nodes.mk (some [4])).Second = none :=
  oob_access_fatal (Nodes.mk (some [3])) zeroNodes (Nodes.mk (some [4])) 5 0
    (by decide) (by decide) (by decide)

/-- C6: On the zero-value node, Val() and Opt() both report absent, and
every Nodes-valued field (Ninit, Nbody, List, Rlist on Node, and Enter,
Exit, Cvars, Inldcl, Inl on the zero-value Func side-table) has Len 0;
on an uninitialized Nodes, Slice() is the empty view and Len() is 0,
with no nil dereference. -/
theorem fresh_node_defaults :
    zeroNode.Val = zeroVal ∧ zeroNode.Opt = IFace.nil
    ∧ zeroNode.Ninit.Len = 0 ∧ zeroNode.Nbody.Len = 0
    ∧ zeroNode.List.Len = 0 ∧ zeroNode.Rlist.Len = 0
    ∧ zeroFunc.Enter.Len = 0 ∧ zeroFunc.Exit.Len = 0 ∧ zeroFunc.Cvars.Len = 0
    ∧ zeroFunc.Inldcl.Len = 0 ∧ zeroFunc.Inl.Len = 0
    ∧ zeroNodes.Slice = [] ∧ zeroNodes.Len = 0 := by decide

/-- C7: Set replaces the contents wholesale: after c.Set(s) the contents
are exactly s in order; Set with an empty slice yields Len 0, resets the
container to the uninitialized zero value, and a subsequent Append
behaves exactly as on a freshly constructed container. -/
theorem set_replaces_and_resets (c d : Nodes) (s e a : List NodeRef) (he : e = []) :
    (c.Set s).Slice = s
    ∧ (d.Set e).Len = 0 ∧ d.Set e = zeroNodes
    ∧ (d.Set e).Append a = zeroNodes.Append a := by
  subst he
  refine ⟨?_, by simp [Nodes.Set, Nodes.Len], by simp [Nodes.Set, zeroNodes], ?_⟩
  · by_cases hs : s.length = 0
    · have hnil : s = [] := List.length_eq_zero.mp hs
      subst hnil; simp [Nodes.Set, Nodes.Slice]
    · simp [Nodes.Set, hs, Nodes.Slice]
  · simp [Nodes.Set, zeroNodes]

/-- Witness for C7: replacing a populated container and resetting
another with the empty slice. -/
theorem set_replaces_and_resets_witness :
    ((Nodes.mk (some [1, 2])).Set [3]).Slice = [3]
    ∧ ((Nodes.mk (some [9])).Set []).Len = 0
    ∧ (Nodes.mk (some [9])).Set [] = zeroNodes
    ∧ ((Nodes.mk (some [9])).Set []).Append [5] = zeroNodes.Append [5] :=
  set_replaces_and_resets (Nodes.mk (some [1, 2])) (Nodes.mk (some [9])) [3] [] [5] rfl

/-- C8: Append extends the contents in order: after c.Append(a) the
contents are the prior contents followed by a, appending zero items
leaves the container unchanged, and on an empty container appending
x, y, z yields Len 3 with First x, Second y and Index 1 y. -/
theorem append_extends_contents (c : Nodes) (a : List NodeRef) (x y z : NodeRef) :
    (c.Append a).Slice = c.Slice ++ a
    ∧ c.Append [] = c
    ∧ (zeroNodes.Append [x, y, z]).Len = 3
    ∧ (zeroNodes.Append [x, y, z]).First = some x
    ∧ (zeroNodes.Append [x, y, z]).Second = some y
    ∧ (zeroNodes.Append [x, y, z]).Index 1 = some y := by
  obtain ⟨s⟩ := c
  refine ⟨?_, ?_, ?_, ?_, ?_, ?_⟩
  · cases s with
    | none =>
      cases a with
      | nil => simp [Nodes.Append, Nodes.Slice]
      | cons hd tl => simp [Nodes.Append, Nodes.Slice]
    | some l => simp [Nodes.Append, Nodes.Slice]
  · cases s with
    | none => simp [Nodes.Append]
    | some l => simp [Nodes.Append]
  · simp [zeroNodes, Nodes.Append, Nodes.Len]
  · simp [zeroNodes, Nodes.Append, Nodes.First]
  · simp [zeroNodes, Nodes.Append, Nodes.Second]
  · simp [zeroNodes, Nodes.Append, Nodes.Index]

/-- C9: AppendNodes moves: after dst.AppendNodes(src) the destination
contents are the prior destination contents followed by the prior
source contents in order, and the source is left with Len 0, in every
combination of empty and non-empty prior states. -/
theorem appendNodes_moves_contents (dst src : Nodes) :
    ((dst.AppendNodes src).1).Slice = dst.Slice ++ src.Slice
    ∧ ((dst.AppendNodes src).2).Len = 0 := by
  obtain ⟨s⟩ := dst; obtain ⟨s2⟩ := src
  constructor
  · cases s2 with
    | none => cases s <;> simp [Nodes.AppendNodes, Nodes.Slice]
    | some l2 => cases s <;> simp [Nodes.AppendNodes, Nodes.Slice]
  · simp [Nodes.AppendNodes, Nodes.Len]

/-- C10: On a node in the optimizer-data-set state, SetOpt(nil) stores
nil but leaves the marker at optimizer-data-set, so a subsequent SetVal
is still fatal even though Opt() reports absent; and once the marker has
left the unset state, no sequence of Val / SetVal / Opt / SetOpt calls
that completes without aborting ever returns it to unset. -/
theorem marker_never_returns_unset (n r m m2 : Node) (v : Val) (ops : List PayloadOp)
    (hn : n.hasVal = -1) (hr : n.SetOpt IFace.nil = Except.ok r)
    (hm : m.hasVal ≠ 0) (hrun : runOps ops m = Except.ok m2) :
    r.hasVal = -1 ∧ r.E = IFace.nil ∧ r.Opt = IFace.nil
    ∧ r.SetVal v = Except.error "have Opt"
    ∧ m2.hasVal ≠ 0 := by
  have hge : ¬ 0 ≤ n.hasVal := by omega
  have h1 : n.hasVal ≠ 1 := by omega
  have hrr : r = { n with hasVal := -1, E := IFace.nil } := by
    simp [Node.SetOpt, hge, h1] at hr
    exact hr.symm
  subst hrr
  exact ⟨rfl, rfl, by simp [Node.Opt], by simp [Node.SetVal],
    runOps_keeps_marker_set ops m m2 hm hrun⟩

/-- Witness for C10: SetOpt(nil) on a concrete optimizer-data-set node,
and a two-operation run from a value-set node. -/
theorem marker_never_returns_unset_witness :
    optNodeNil.hasVal = -1 ∧ optNodeNil.E = IFace.nil ∧ optNodeNil.Opt = IFace.nil
    ∧ optNodeNil.SetVal zeroVal = Except.error "have Opt"
    ∧ ({ zeroNode with hasVal := 1, E := IFace.nil } : Node).hasVal ≠ 0 :=
  marker_never_returns_unset optNode5 optNodeNil valNode7
    { zeroNode with hasVal := 1, E := IFace.nil } zeroVal
    [PayloadOp.setVal zeroVal, PayloadOp.getVal]
    (by decide) (by decide) (by decide) (by decide)

end gc
